import Mathlib

/-!
Verification of the Codie code-analysis backend core
(`src/backend/app/services/ai_providers.py`, `ai_analyzer.py`,
`complexity_analyzer.py`, `graph_builder.py`), as a shallow embedding.

Time (`time.time()` / `datetime.now()`) is modelled as an `Int` number of
seconds passed explicitly to every operation that reads the clock.
Exceptions are modelled by an `ExcKind` inductive at the granularity of the
Python exception classes the code distinguishes.
-/

/-- `ProviderStatus` from `ai_providers.py` (CLOSED / OPEN / HALF_OPEN). -/
inductive ProviderStatus where
  | closed
  | opened
  | halfOpen
deriving DecidableEq, Repr

/-- The mutable state of `CircuitBreaker` (`ai_providers.py` lines 50-65):
configuration `failure_threshold` / `recovery_timeout` plus the fields
`failure_count`, `last_failure_time`, `status`.  The
`expected_exception` class is not stored; the `isinstance` test result is
passed to `on_failure` as a boolean. -/
structure CircuitBreaker where
  failure_threshold : Nat
  recovery_timeout : Int
  failure_count : Nat
  last_failure_time : Int
  status : ProviderStatus
deriving DecidableEq, Repr

/-- `CircuitBreaker.__init__`: `failure_count = 0`, `last_failure_time = 0`,
`status = CLOSED`. -/
def mkCircuitBreaker (failure_threshold : Nat) (recovery_timeout : Int) :
    CircuitBreaker :=
  { failure_threshold := failure_threshold
    recovery_timeout := recovery_timeout
    failure_count := 0
    last_failure_time := 0
    status := .closed }

/-- `CircuitBreaker.can_execute` (lines 67-79).  Returns the boolean result
together with the updated breaker (the OPEN-to-HALF_OPEN transition is a side
effect of the call). -/
def can_execute (cb : CircuitBreaker) (now : Int) : Bool × CircuitBreaker :=
  match cb.status with
  | .closed => (true, cb)
  | .opened =>
      if cb.recovery_timeout ≤ now - cb.last_failure_time then
        (true, { cb with status := .halfOpen })
      else
        (false, cb)
  | .halfOpen => (true, cb)

/-- `CircuitBreaker.on_success` (lines 81-85). -/
def on_success (cb : CircuitBreaker) : CircuitBreaker :=
  { cb with failure_count := 0, status := .closed }

/-- `CircuitBreaker.on_failure` (lines 87-101).  `m` is the result of
`isinstance(exception, self.expected_exception)`. -/
def on_failure (cb : CircuitBreaker) (m : Bool) (now : Int) :
    CircuitBreaker :=
  if m then
    let fc := cb.failure_count + 1
    if cb.failure_threshold ≤ fc then
      { cb with failure_count := fc, last_failure_time := now,
                status := .opened }
    else
      { cb with failure_count := fc, last_failure_time := now }
  else
    cb

/-- C1: `can_execute` returns true when CLOSED; when OPEN it returns true and
transitions to HALF_OPEN exactly when `now - last_failure_time ≥
recovery_timeout` and returns false (unchanged) otherwise; when HALF_OPEN it
returns true (permitting the probe). -/
theorem c1_can_execute_cases (cb : CircuitBreaker) (now : Int) :
    (cb.status = .closed → can_execute cb now = (true, cb)) ∧
    (cb.status = .opened →
      (cb.recovery_timeout ≤ now - cb.last_failure_time →
        can_execute cb now = (true, { cb with status := .halfOpen })) ∧
      (¬ cb.recovery_timeout ≤ now - cb.last_failure_time →
        can_execute cb now = (false, cb))) ∧
    (cb.status = .halfOpen → can_execute cb now = (true, cb)) := by
  refine ⟨fun h => ?_, fun h => ⟨fun ht => ?_, fun ht => ?_⟩, fun h => ?_⟩
  · simp [can_execute, h]
  · simp [can_execute, h, ht]
  · simp [can_execute, h, ht]
  · simp [can_execute, h]

/-- Witness for C1 at concrete breakers in each of the three states. -/
theorem c1_can_execute_cases_witness :
    can_execute (mkCircuitBreaker 5 60) 0 = (true, mkCircuitBreaker 5 60) ∧
    can_execute ⟨5, 60, 5, 0, .opened⟩ 100 = (true, ⟨5, 60, 5, 0, .halfOpen⟩) ∧
    can_execute ⟨5, 60, 5, 0, .opened⟩ 10 = (false, ⟨5, 60, 5, 0, .opened⟩) ∧
    can_execute ⟨5, 60, 5, 0, .halfOpen⟩ 0 = (true, ⟨5, 60, 5, 0, .halfOpen⟩) := by
  refine ⟨(c1_can_execute_cases (mkCircuitBreaker 5 60) 0).1 rfl,
    ((c1_can_execute_cases ⟨5, 60, 5, 0, .opened⟩ 100).2.1 rfl).1 (by decide),
    ((c1_can_execute_cases ⟨5, 60, 5, 0, .opened⟩ 10).2.1 rfl).2 (by decide),
    (c1_can_execute_cases ⟨5, 60, 5, 0, .halfOpen⟩ 0).2.2 rfl⟩

/-- Exception classes distinguished by the provider code paths:
`ProviderUnavailable` (the breaker's `expected_exception`), an httpx timeout
(`httpx.TimeoutException`, not a `ProviderUnavailable`), `ValueError`,
`UnboundLocalError`, and any other exception class. -/
inductive ExcKind where
  | providerUnavailable
  | timeoutError
  | valueError
  | unboundLocalError
  | otherError
deriving DecidableEq, Repr

/-- Outcome of the underlying awaited network call (`_call_gemini` /
`_call_huggingface`): either the parsed suggestion list, or the exception the
call raised (a `ProviderUnavailable` on a non-2xx response, an httpx timeout
on a timed-out request, ...). -/
inductive CallOutcome where
  | ok (result : List String)
  | err (e : ExcKind)
deriving DecidableEq, Repr

/-- `AIProvider.execute_with_circuit_breaker` (`ai_providers.py` lines
150-161): if `can_execute()` is false, raise `ProviderUnavailable` without
touching the failure counters; otherwise run the call, report `on_success` on
a normal return and `on_failure(e)` (matching iff `e` is a
`ProviderUnavailable`) before re-raising on an exception. -/
def execute_with_circuit_breaker (cb : CircuitBreaker) (now : Int)
    (call : CallOutcome) : Except ExcKind (List String) × CircuitBreaker :=
  let r := can_execute cb now
  if r.1 then
    match call with
    | .ok res => (.ok res, on_success r.2)
    | .err e => (.error e, on_failure r.2 (e == .providerUnavailable) now)
  else
    (.error .providerUnavailable, r.2)

/-- A configured provider, abstracted to its circuit breaker and the outcome
its underlying network call would have now (the `ProviderConfig` and the
token tracker carry no behaviour relevant to the verified claims). -/
structure Provider where
  cb : CircuitBreaker
  outcome : CallOutcome
deriving DecidableEq, Repr

/-- `GeminiProvider.generate_suggestions` / the Hugging Face twin
(`ai_providers.py` lines 177-228): run the call through
`execute_with_circuit_breaker`; the outer handler wraps any exception into a
fresh `ProviderUnavailable` before re-raising. -/
def generate_suggestions (p : Provider) (now : Int) :
    Except ExcKind (List String) × CircuitBreaker :=
  match execute_with_circuit_breaker p.cb now p.outcome with
  | (.ok res, cb') => (.ok res, cb')
  | (.error _, cb') => (.error .providerUnavailable, cb')

/-- Python `not code.strip()`: the string is empty or whitespace-only.
(Stated over the character list so that it evaluates inside the kernel.) -/
def isBlank (s : String) : Bool :=
  s.data.all Char.isWhitespace

/-- The provider loop of `AIProviderManager.get_suggestions` (lines 412-426):
try providers in preference order; a non-empty result is returned
immediately, an exception or an empty result falls through to the next
provider; an empty list is returned when every provider fails. -/
def tryProviders : List Provider → Int →
    Except ExcKind (List String) × List Provider
  | [], _ => (.ok [], [])
  | p :: rest, now =>
    let r := generate_suggestions p now
    let p' : Provider := { p with cb := r.2 }
    match r.1 with
    | .ok res =>
        if res.isEmpty then
          let rec' := tryProviders rest now
          (rec'.1, p' :: rec'.2)
        else
          (.ok res, p' :: rest)
    | .error _ =>
        let rec' := tryProviders rest now
        (rec'.1, p' :: rec'.2)

/-- `AIProviderManager.get_suggestions` (lines 402-426): raise `ValueError`
when the code is blank, otherwise run the provider loop.  The manager's
providers are modelled as the list of configured providers in the fixed
preference order `["gemini", "huggingface", "openai", "mock"]`. -/
def manager_get_suggestions (code : String) (providers : List Provider)
    (now : Int) : Except ExcKind (List String) × List Provider :=
  if isBlank code then
    (.error .valueError, providers)
  else
    tryProviders providers now

/-- `can_execute` never changes `failure_count`. -/
theorem can_execute_failure_count (cb : CircuitBreaker) (now : Int) :
    ((can_execute cb now).2).failure_count = cb.failure_count := by
  unfold can_execute
  cases h : cb.status <;> simp
  split <;> rfl

/-- `can_execute` never changes `failure_threshold`. -/
theorem can_execute_failure_threshold (cb : CircuitBreaker) (now : Int) :
    ((can_execute cb now).2).failure_threshold = cb.failure_threshold := by
  unfold can_execute
  cases h : cb.status <;> simp
  split <;> rfl

/-- A matching `on_failure` increments `failure_count` by exactly one. -/
theorem on_failure_matching_count (cb : CircuitBreaker) (now : Int) :
    (on_failure cb true now).failure_count = cb.failure_count + 1 := by
  unfold on_failure
  simp only [if_true]
  split <;> rfl

/-- Counterexample to C2 as stated: the first provider fails (raises
`ProviderUnavailable`) because its breaker is OPEN inside the recovery
window, so `can_execute` blocks the call and `on_failure` is never invoked;
the second provider succeeds and its output is returned, but the first
provider's `failure_count` stays at 5 instead of becoming 6. -/
theorem c2_counterexample :
    (generate_suggestions ⟨⟨5, 60, 5, 0, .opened⟩, .err .providerUnavailable⟩
        10).1 = .error .providerUnavailable ∧
    manager_get_suggestions "x = 1"
        [⟨⟨5, 60, 5, 0, .opened⟩, .err .providerUnavailable⟩,
         ⟨mkCircuitBreaker 5 60, .ok ["Add type hints to the function"]⟩] 10 =
      (.ok ["Add type hints to the function"],
       [⟨⟨5, 60, 5, 0, .opened⟩, .err .providerUnavailable⟩,
        ⟨mkCircuitBreaker 5 60, .ok ["Add type hints to the function"]⟩]) ∧
    ¬ (5 = 5 + 1) := by
  refine ⟨rfl, rfl, by decide⟩

/-- C2 amended: when the first provider's breaker permits execution and its
underlying call raises the expected `ProviderUnavailable`, and the second
provider's breaker permits execution and its call returns a non-empty list
`S`, the manager returns exactly `S` and the first provider's
`failure_count` is exactly one greater.  (When the first provider's breaker
blocks the call, or its call raises a non-`ProviderUnavailable` exception,
the count is unchanged — see the counterexample.) -/
theorem c2_amended (code : String) (now : Int) (cb1 cb2 : CircuitBreaker)
    (S : List String)
    (hcode : isBlank code = false)
    (h1 : (can_execute cb1 now).1 = true)
    (h2 : (can_execute cb2 now).1 = true)
    (hS : S ≠ []) :
    (manager_get_suggestions code
        [⟨cb1, .err .providerUnavailable⟩, ⟨cb2, .ok S⟩] now).1 = .ok S ∧
    ((manager_get_suggestions code
        [⟨cb1, .err .providerUnavailable⟩, ⟨cb2, .ok S⟩] now).2.headD
          ⟨cb1, .err .providerUnavailable⟩).cb.failure_count =
      cb1.failure_count + 1 := by
  have hemp : S.isEmpty = false := by
    cases S with
    | nil => exact absurd rfl hS
    | cons a l => rfl
  simp only [manager_get_suggestions, hcode, Bool.false_eq_true, if_false,
    tryProviders, generate_suggestions, execute_with_circuit_breaker, h1, h2,
    if_true, hemp, beq_self_eq_true]
  refine ⟨by trivial, ?_⟩
  simp only [List.headD_cons]
  rw [on_failure_matching_count, can_execute_failure_count]

/-- Witness for C2 amended at two fresh (CLOSED) breakers. -/
theorem c2_amended_witness :
    (manager_get_suggestions "x = 1"
        [⟨mkCircuitBreaker 5 60, .err .providerUnavailable⟩,
         ⟨mkCircuitBreaker 5 60, .ok ["Use docstrings to document behavior"]⟩]
        0).1 = .ok ["Use docstrings to document behavior"] ∧
    ((manager_get_suggestions "x = 1"
        [⟨mkCircuitBreaker 5 60, .err .providerUnavailable⟩,
         ⟨mkCircuitBreaker 5 60, .ok ["Use docstrings to document behavior"]⟩]
        0).2.headD ⟨mkCircuitBreaker 5 60, .err .providerUnavailable⟩).cb.failure_count =
      (mkCircuitBreaker 5 60).failure_count + 1 :=
  c2_amended "x = 1" 0 (mkCircuitBreaker 5 60) (mkCircuitBreaker 5 60)
    ["Use docstrings to document behavior"] (by decide) (by decide)
    (by decide) (by decide)

/-- Counterexample to C4 as stated: a timed-out network call raises an httpx
timeout, which is not an instance of the breaker's `expected_exception`
(`ProviderUnavailable`), so `on_failure` leaves `failure_count` at 0 — even
with `failure_threshold = 1` the breaker stays CLOSED instead of opening. -/
theorem c4_counterexample :
    (execute_with_circuit_breaker (mkCircuitBreaker 5 60) 0
        (.err .timeoutError)).2.failure_count = 0 ∧
    ¬ ((execute_with_circuit_breaker (mkCircuitBreaker 5 60) 0
        (.err .timeoutError)).2.failure_count =
      (mkCircuitBreaker 5 60).failure_count + 1) ∧
    (execute_with_circuit_breaker (mkCircuitBreaker 1 60) 0
        (.err .timeoutError)).2.status = .closed := by
  refine ⟨rfl, by decide, rfl⟩

/-- C4 amended: a timed-out call is NOT counted by the circuit breaker —
the timeout exception does not match `expected_exception`, so the breaker
state after the call is exactly the state `can_execute` left (failure count
unchanged); only a call that raises `ProviderUnavailable` inside the breaker
increments `failure_count`, and it reaches OPEN once the count reaches
`failure_threshold`. -/
theorem c4_amended (cb : CircuitBreaker) (now : Int)
    (h : (can_execute cb now).1 = true) :
    (execute_with_circuit_breaker cb now (.err .timeoutError)).2 =
      (can_execute cb now).2 ∧
    (execute_with_circuit_breaker cb now
        (.err .timeoutError)).2.failure_count = cb.failure_count ∧
    (execute_with_circuit_breaker cb now
        (.err .providerUnavailable)).2.failure_count = cb.failure_count + 1 ∧
    (cb.failure_threshold ≤ cb.failure_count + 1 →
      (execute_with_circuit_breaker cb now
        (.err .providerUnavailable)).2.status = .opened) := by
  have hfc := can_execute_failure_count cb now
  have hft := can_execute_failure_threshold cb now
  simp only [execute_with_circuit_breaker, h, if_true]
  refine ⟨rfl, hfc, ?_, fun hth => ?_⟩
  · show (on_failure (can_execute cb now).2 true now).failure_count =
      cb.failure_count + 1
    rw [on_failure_matching_count, hfc]
  · show (on_failure (can_execute cb now).2 true now).status = .opened
    have hc : (can_execute cb now).2.failure_threshold ≤
        (can_execute cb now).2.failure_count + 1 := by
      rw [hfc, hft]; exact hth
    simp [on_failure, hc]

/-- Witness for C4 amended at a fresh breaker with threshold 1. -/
theorem c4_amended_witness :
    (execute_with_circuit_breaker (mkCircuitBreaker 1 60) 0
        (.err .timeoutError)).2 = (can_execute (mkCircuitBreaker 1 60) 0).2 ∧
    (execute_with_circuit_breaker (mkCircuitBreaker 1 60) 0
        (.err .timeoutError)).2.failure_count =
      (mkCircuitBreaker 1 60).failure_count ∧
    (execute_with_circuit_breaker (mkCircuitBreaker 1 60) 0
        (.err .providerUnavailable)).2.failure_count =
      (mkCircuitBreaker 1 60).failure_count + 1 ∧
    ((mkCircuitBreaker 1 60).failure_threshold ≤
        (mkCircuitBreaker 1 60).failure_count + 1 →
      (execute_with_circuit_breaker (mkCircuitBreaker 1 60) 0
        (.err .providerUnavailable)).2.status = .opened) :=
  c4_amended (mkCircuitBreaker 1 60) 0 (by decide)

/-- The provider loop never raises: its result is always `Except.ok`. -/
theorem tryProviders_isOk (ps : List Provider) (now : Int) :
    ∃ l, (tryProviders ps now).1 = Except.ok l := by
  induction ps with
  | nil => exact ⟨[], rfl⟩
  | cons p rest ih =>
    simp only [tryProviders]
    rcases hg : (generate_suggestions p now).1 with e | res
    · simpa [hg] using ih
    · by_cases hres : res.isEmpty
      · simpa [hg, hres] using ih
      · exact ⟨res, by simp [hg, hres]⟩

/-- If every provider raises or returns an empty result, the loop returns
the empty list. -/
theorem tryProviders_all_fail (ps : List Provider) (now : Int)
    (h : ∀ p ∈ ps, (generate_suggestions p now).1 = .ok [] ∨
      ∃ e, (generate_suggestions p now).1 = .error e) :
    (tryProviders ps now).1 = .ok [] := by
  induction ps with
  | nil => rfl
  | cons p rest ih =>
    have hrest : (tryProviders rest now).1 = .ok [] :=
      ih (fun q hq => h q (List.mem_cons_of_mem p hq))
    rcases h p (List.mem_cons_self p rest) with hp | ⟨e, hp⟩
    · simp [tryProviders, hp, hrest]
    · simp [tryProviders, hp, hrest]

/-- C5: `AIProviderManager.get_suggestions` raises `ValueError` exactly when
the code is empty or whitespace-only; for non-blank code it never raises —
in particular, when every configured provider raises or returns an empty
result it returns the empty list (a provider error is never propagated). -/
theorem c5_manager_error_handling (code : String) (providers : List Provider)
    (now : Int) :
    (isBlank code = true →
      manager_get_suggestions code providers now =
        (.error .valueError, providers)) ∧
    (isBlank code = false →
      ∃ l, (manager_get_suggestions code providers now).1 = .ok l) ∧
    (isBlank code = false →
      (∀ p ∈ providers, (generate_suggestions p now).1 = .ok [] ∨
        ∃ e, (generate_suggestions p now).1 = .error e) →
      (manager_get_suggestions code providers now).1 = .ok []) := by
  refine ⟨fun hb => ?_, fun hb => ?_, fun hb hall => ?_⟩
  · simp [manager_get_suggestions, hb]
  · simpa [manager_get_suggestions, hb] using tryProviders_isOk providers now
  · simpa [manager_get_suggestions, hb] using
      tryProviders_all_fail providers now hall

/-- Witness for C5: a blank code raises `ValueError`; with one provider
whose call times out and one whose call is blocked, a non-blank code yields
the empty list. -/
theorem c5_manager_error_handling_witness :
    manager_get_suggestions "  " [⟨mkCircuitBreaker 5 60, .ok ["x"]⟩] 0 =
      (.error .valueError, [⟨mkCircuitBreaker 5 60, .ok ["x"]⟩]) ∧
    (manager_get_suggestions "x = 1"
      [⟨mkCircuitBreaker 5 60, .err .timeoutError⟩,
       ⟨⟨5, 60, 5, 0, .opened⟩, .err .providerUnavailable⟩] 10).1 = .ok [] := by
  constructor
  · exact (c5_manager_error_handling "  " [⟨mkCircuitBreaker 5 60, .ok ["x"]⟩]
      0).1 (by decide)
  · refine (c5_manager_error_handling "x = 1"
      [⟨mkCircuitBreaker 5 60, .err .timeoutError⟩,
       ⟨⟨5, 60, 5, 0, .opened⟩, .err .providerUnavailable⟩] 10).2.2 (by decide)
      ?_
    intro p hp
    fin_cases hp
    · exact Or.inr ⟨.providerUnavailable, rfl⟩
    · exact Or.inr ⟨.providerUnavailable, rfl⟩

/-- An operation on a circuit breaker, for reasoning about call sequences:
a `can_execute()` check at a given time, an `on_success()`, or an
`on_failure(e)` at a given time with `m` the `isinstance` match result. -/
inductive BreakerOp where
  | canExec (now : Int)
  | opSuccess
  | opFailure (m : Bool) (now : Int)
deriving DecidableEq, Repr

/-- The state after one breaker operation. -/
def applyOp (cb : CircuitBreaker) : BreakerOp → CircuitBreaker
  | .canExec now => (can_execute cb now).2
  | .opSuccess => on_success cb
  | .opFailure m now => on_failure cb m now

/-- The state after a sequence of breaker operations. -/
def applyOps (cb : CircuitBreaker) (ops : List BreakerOp) : CircuitBreaker :=
  ops.foldl applyOp cb

/-- The boolean results of the `can_execute()` calls in a sequence of
breaker operations (in order), with the side effects applied. -/
def canExecResults (cb : CircuitBreaker) : List BreakerOp → List Bool
  | [] => []
  | .canExec now :: rest =>
      (can_execute cb now).1 :: canExecResults ((can_execute cb now).2) rest
  | op :: rest => canExecResults (applyOp cb op) rest

/-- The threshold invariant: away from CLOSED, `failure_count` has reached
`failure_threshold`. -/
def thresholdReached (cb : CircuitBreaker) : Prop :=
  cb.status ≠ .closed → cb.failure_threshold ≤ cb.failure_count

/-- Every single breaker operation preserves the threshold invariant. -/
theorem applyOp_thresholdReached (cb : CircuitBreaker) (op : BreakerOp)
    (h : thresholdReached cb) : thresholdReached (applyOp cb op) := by
  cases op with
  | canExec now =>
    intro hs
    simp only [applyOp] at hs ⊢
    rw [can_execute_failure_count, can_execute_failure_threshold]
    apply h
    cases hcb : cb.status with
    | closed => simp [can_execute, hcb] at hs
    | opened => simp [hcb]
    | halfOpen => simp [hcb]
  | opSuccess =>
    intro hs
    simp [applyOp, on_success] at hs
  | opFailure m now =>
    intro hs
    unfold applyOp on_failure
    unfold applyOp on_failure at hs
    by_cases hm : m = true
    · subst hm
      simp only [if_true] at hs ⊢
      by_cases hth : cb.failure_threshold ≤ cb.failure_count + 1
      · simp [hth]
      · simp only [hth, if_false] at hs
        exact absurd (h hs) (by omega)
    · simp only [Bool.not_eq_true] at hm
      subst hm
      simp only [Bool.false_eq_true, if_false] at hs ⊢
      exact h hs
  
/-- A sequence of breaker operations preserves the threshold invariant. -/
theorem applyOps_thresholdReached (ops : List BreakerOp)
    (cb : CircuitBreaker) (h : thresholdReached cb) :
    thresholdReached (applyOps cb ops) := by
  induction ops generalizing cb with
  | nil => exact h
  | cons op rest ih =>
    exact ih (applyOp cb op) (applyOp_thresholdReached cb op h)

/-- C10: from the initial state (CLOSED, `failure_count = 0`), after any
sequence of `can_execute` / `on_success` / `on_failure` operations, OPEN
implies `failure_count ≥ failure_threshold`; `can_execute` never changes
`failure_count`; and from HALF_OPEN (reachable only with the threshold met)
a single matching failure returns the breaker to OPEN. -/
theorem c10_breaker_invariant (t : Nat) (r : Int) (ops : List BreakerOp)
    (now : Int) :
    ((applyOps (mkCircuitBreaker t r) ops).status = .opened →
      (applyOps (mkCircuitBreaker t r) ops).failure_threshold ≤
        (applyOps (mkCircuitBreaker t r) ops).failure_count) ∧
    (∀ cb : CircuitBreaker, ∀ n : Int,
      ((can_execute cb n).2).failure_count = cb.failure_count) ∧
    ((applyOps (mkCircuitBreaker t r) ops).status = .halfOpen →
      (on_failure (applyOps (mkCircuitBreaker t r) ops) true now).status =
        .opened) := by
  have hinv : thresholdReached (applyOps (mkCircuitBreaker t r) ops) :=
    applyOps_thresholdReached ops (mkCircuitBreaker t r)
      (fun hs => absurd rfl hs)
  refine ⟨fun hs => hinv (by simp [hs]), can_execute_failure_count, fun hs => ?_⟩
  have hth := hinv (by simp [hs])
  simp [on_failure, Nat.le_succ_of_le hth]

/-- Witness for C10: one matching failure at threshold 1 opens the breaker
(count 1 ≥ threshold 1); a later `can_execute` past the recovery window
moves it to HALF_OPEN without touching the count, and a single matching
failure there re-opens it. -/
theorem c10_breaker_invariant_witness :
    ((applyOps (mkCircuitBreaker 1 5) [.opFailure true 0]).failure_threshold ≤
      (applyOps (mkCircuitBreaker 1 5) [.opFailure true 0]).failure_count) ∧
    ((can_execute (applyOps (mkCircuitBreaker 1 5) [.opFailure true 0])
        100).2).failure_count =
      (applyOps (mkCircuitBreaker 1 5) [.opFailure true 0]).failure_count ∧
    (on_failure
        (applyOps (mkCircuitBreaker 1 5) [.opFailure true 0, .canExec 100])
        true 200).status = .opened :=
  ⟨(c10_breaker_invariant 1 5 [.opFailure true 0] 0).1 (by decide),
   (c10_breaker_invariant 1 5 [.opFailure true 0] 0).2.1 _ 100,
   (c10_breaker_invariant 1 5 [.opFailure true 0, .canExec 100] 200).2.2
     (by decide)⟩

/-- Counterexample to C3 as stated: a breaker OPEN since time 0 with
`recovery_timeout = 5`; at time 10 `can_execute` transitions it to
HALF_OPEN and returns true, and — with no `on_success`/`on_failure` in
between — a second `can_execute` at time 11 returns true again, so two
probe calls are permitted between the OPEN-to-HALF_OPEN transition and the
next state transition. -/
theorem c3_counterexample :
    (⟨1, 5, 1, 0, .opened⟩ : CircuitBreaker).status = .opened ∧
    (can_execute ⟨1, 5, 1, 0, .opened⟩ 10).2.status = .halfOpen ∧
    canExecResults ⟨1, 5, 1, 0, .opened⟩ [.canExec 10, .canExec 11] =
      [true, true] := by
  decide

/-- C3 amended: once the breaker is HALF_OPEN, every `can_execute` call
returns true and leaves the state (and counters) unchanged — the breaker
itself does not limit the number of probes; the next state transition only
happens at `on_success` (to CLOSED) or at a matching `on_failure` with the
threshold met (to OPEN), so "exactly one probe" holds only under the call
discipline that each permitted call reports its outcome before the next
`can_execute`. -/
theorem c3_amended (cb : CircuitBreaker) (now : Int)
    (h : cb.status = .halfOpen) :
    can_execute cb now = (true, cb) ∧
    (on_success cb).status = .closed ∧
    (cb.failure_threshold ≤ cb.failure_count →
      (on_failure cb true now).status = .opened) := by
  refine ⟨by simp [can_execute, h], rfl, fun hth => ?_⟩
  simp [on_failure, Nat.le_succ_of_le hth]

/-- Witness for C3 amended at a concrete HALF_OPEN breaker. -/
theorem c3_amended_witness :
    can_execute ⟨5, 60, 5, 0, .halfOpen⟩ 100 =
      (true, ⟨5, 60, 5, 0, .halfOpen⟩) ∧
    (on_success ⟨5, 60, 5, 0, .halfOpen⟩).status = .closed ∧
    ((5 : Nat) ≤ 5 →
      (on_failure ⟨5, 60, 5, 0, .halfOpen⟩ true 100).status = .opened) :=
  c3_amended ⟨5, 60, 5, 0, .halfOpen⟩ 100 rfl

/-- Python `str.count` (non-overlapping occurrence count), on character
lists, with the haystack length as structural fuel so that it evaluates
inside the kernel.  (None of the scanned keywords is self-overlapping, so
non-overlapping and naive counting agree on them.) -/
def pyCountAux : Nat → List Char → List Char → Nat
  | 0, _, _ => 0
  | _ + 1, _, [] => 0
  | fuel + 1, pat, c :: rest =>
    if !pat.isEmpty && pat.isPrefixOf (c :: rest) then
      1 + pyCountAux fuel pat (List.drop (pat.length - 1) rest)
    else
      pyCountAux fuel pat rest

/-- Python `haystack.count(pat)`. -/
def pyCount (pat haystack : List Char) : Nat :=
  pyCountAux haystack.length pat haystack

/-- Python `str.strip()` on a character list. -/
def pyStrip (s : List Char) : List Char :=
  ((s.dropWhile Char.isWhitespace).reverse.dropWhile Char.isWhitespace).reverse

/-- Helper for `pySplitlines`: the accumulator holds the current line
reversed.  Recognises `\n`, `\r\n` and `\r` line endings like Python's
`str.splitlines`; a terminator at the end of the string does not open a new
empty line. -/
def splitlinesGo (acc : List Char) : List Char → List (List Char)
  | [] => [acc.reverse]
  | '\r' :: '\n' :: rest =>
      acc.reverse :: (match rest with
        | [] => []
        | r => splitlinesGo [] r)
  | '\n' :: rest =>
      acc.reverse :: (match rest with
        | [] => []
        | r => splitlinesGo [] r)
  | '\r' :: rest =>
      acc.reverse :: (match rest with
        | [] => []
        | r => splitlinesGo [] r)
  | c :: rest => splitlinesGo (c :: acc) rest

/-- Python `str.splitlines()` on a character list. -/
def pySplitlines : List Char → List (List Char)
  | [] => []
  | s => splitlinesGo [] s

/-- `_complexity_fallback` (`complexity_analyzer.py` lines 90-96): 0 for the
empty string, otherwise 1 plus the number of occurrences (as substrings of
the lowercased text) of the fixed keyword set. -/
def complexity_fallback (source : String) : Nat :=
  if source.data.isEmpty then 0
  else
    1 + ((["if", "for", "while", "and", "or", "elif", "except", "?"] :
        List String).map
      (fun k => pyCount k.data (source.data.map Char.toLower))).sum

/-- The `prefixes` comment-prefix table of `compute_complexity` (lines
144-152), with `#` as the default. -/
def commentPrefixFor (lang : List Char) : List Char :=
  if lang = "javascript".data ∨ lang = "js".data ∨ lang = "typescript".data ∨
      lang = "ts".data ∨ lang = "java".data then
    "//".data
  else
    "#".data

/-- A line that counts in the final fallback tier: non-empty after
stripping and not starting with the comment prefix. -/
def isCodeLine (pre line : List Char) : Bool :=
  !((pyStrip line).isEmpty || pre.isPrefixOf (pyStrip line))

/-- `compute_complexity` (`complexity_analyzer.py` lines 135-159).  The
optional tree-sitter structural tier is environment-dependent (guarded
imports, absent by default); per the source's own fallback design,
`_complexity_python_ts` / `_complexity_js_ts_ts` then degrade to
`_complexity_fallback`, which is the tier modelled here.  Other languages
use the comment-aware non-empty-line count. -/
def compute_complexity (language content : String) : Nat :=
  let lang := language.data.map Char.toLower
  if lang = "python".data then
    complexity_fallback content
  else if lang = "javascript".data ∨ lang = "js".data ∨
      lang = "typescript".data ∨ lang = "ts".data then
    complexity_fallback content
  else if content.data.isEmpty then
    0
  else
    ((pySplitlines content.data).filter (isCodeLine (commentPrefixFor lang))).length

/-- The lexical fallback is at least 1 on any non-empty source. -/
theorem complexity_fallback_pos (content : String) (h : content ≠ "") :
    1 ≤ complexity_fallback content := by
  rcases hd : content.data with _ | ⟨c, cs⟩
  · exact absurd (String.ext (hd.trans rfl)) h
  · unfold complexity_fallback
    rw [hd]
    simp

/-- The final line-counting tier is at least 1 as soon as one line counts. -/
theorem countLoc_pos (pre : List Char) (content : String)
    (h : ∃ line ∈ pySplitlines content.data, isCodeLine pre line = true) :
    1 ≤ ((pySplitlines content.data).filter (isCodeLine pre)).length := by
  obtain ⟨line, hmem, hcode⟩ := h
  exact List.length_pos.mpr
    (List.ne_nil_of_mem (List.mem_filter.mpr ⟨hmem, hcode⟩))

/-- Counterexample to C9 as stated: `x = "a or b"` is a straight-line
assignment with no branches in every supported language, yet
`compute_complexity` for python returns 2, not 1 — the lexical tier counts
the keyword `or` occurring as a substring inside the string literal.  (The
same text also scores 2 under the structural tier, whose boolean-operator
scan counts `\x22 or \x22` lexically.) -/
theorem c9_counterexample :
    compute_complexity "python" "x = \"a or b\"" = 2 ∧
    compute_complexity "python" "x = \"a or b\"" ≠ 1 := by
  decide

/-- C9 amended: for the lexical-fallback languages (python / javascript /
typescript) any non-empty input scores at least 1 (in particular any input
containing a decision keyword); `return 1` scores exactly 1 in every
supported language; and for the line-counting languages (java / go / rust)
the score is at least 1 exactly on inputs with at least one non-blank,
non-comment line — a straight-line snippet is not always 1 (see the
counterexample) and a comment-only java input scores 0. -/
theorem c9_amended (language content : String) :
    (language ∈ (["python", "javascript", "typescript"] : List String) →
      content ≠ "" → 1 ≤ compute_complexity language content) ∧
    (language ∈ (["python", "javascript", "java", "typescript", "go",
        "rust"] : List String) →
      compute_complexity language "return 1" = 1) ∧
    (language ∈ (["java", "go", "rust"] : List String) →
      (∃ line ∈ pySplitlines content.data,
        isCodeLine (commentPrefixFor (language.data.map Char.toLower)) line =
          true) →
      1 ≤ compute_complexity language content) := by
  refine ⟨fun hl hne => ?_, fun hl => ?_, fun hl hline => ?_⟩
  · fin_cases hl
    · rw [show compute_complexity "python" content =
        complexity_fallback content from rfl]
      exact complexity_fallback_pos content hne
    · rw [show compute_complexity "javascript" content =
        complexity_fallback content from rfl]
      exact complexity_fallback_pos content hne
    · rw [show compute_complexity "typescript" content =
        complexity_fallback content from rfl]
      exact complexity_fallback_pos content hne
  · fin_cases hl <;> decide
  · fin_cases hl
    · have h1 := countLoc_pos
        (commentPrefixFor ("java".data.map Char.toLower)) content hline
      rcases hd : content.data with _ | ⟨c, cs⟩
      · rw [hd] at hline
        simp [pySplitlines] at hline
      · unfold compute_complexity
        rw [if_neg (by decide), if_neg (by decide), hd, if_neg (by simp)]
        exact hd ▸ h1
    · have h1 := countLoc_pos
        (commentPrefixFor ("go".data.map Char.toLower)) content hline
      rcases hd : content.data with _ | ⟨c, cs⟩
      · rw [hd] at hline
        simp [pySplitlines] at hline
      · unfold compute_complexity
        rw [if_neg (by decide), if_neg (by decide), hd, if_neg (by simp)]
        exact hd ▸ h1
    · have h1 := countLoc_pos
        (commentPrefixFor ("rust".data.map Char.toLower)) content hline
      rcases hd : content.data with _ | ⟨c, cs⟩
      · rw [hd] at hline
        simp [pySplitlines] at hline
      · unfold compute_complexity
        rw [if_neg (by decide), if_neg (by decide), hd, if_neg (by simp)]
        exact hd ▸ h1

/-- Witness for C9 amended: a one-character python input scores ≥ 1,
`return 1` in rust scores exactly 1, and a java input with one code line
and one comment line scores ≥ 1. -/
theorem c9_amended_witness :
    1 ≤ compute_complexity "python" "x" ∧
    compute_complexity "rust" "return 1" = 1 ∧
    1 ≤ compute_complexity "java" "y();\n// note" :=
  ⟨(c9_amended "python" "x").1 (by decide) (by decide),
   (c9_amended "rust" "return 1").2.1 (by decide),
   (c9_amended "java" "y();\n// note").2.2 (by decide) (by decide)⟩

/-- A discovered function symbol.  `build_graph` (`graph_builder.py` line
97) stores it as the string `f"{file_stem}:{qualname}"` with `qualname` a
dot-joined scope path, and recovers the short name as
`sym.split(":")[-1].split(".")[-1]` (line 107).  Stems and Python
identifiers contain no `:` or `.`, so the joined string and this pair are
in bijection and the short name is the last path component. -/
structure FnSym where
  stem : String
  path : List String
deriving DecidableEq, Repr

/-- `sym.split(":")[-1].split(".")[-1]` — the unqualified function name. -/
def shortName (sym : FnSym) : String :=
  sym.path.getLastD ""

/-- One parsed source file, abstracted to the output of
`_py_functions_and_calls` (`graph_builder.py` lines 11-68): for every
function definition its qualified scope path and the set of unqualified
names it calls.  (`calls` and `complexity` share exactly the keys created
in `visit_FunctionDef`, so a single list models both maps.) -/
structure SrcFile where
  stem : String
  funcs : List (List String × List String)
deriving DecidableEq, Repr

/-- The symbol index `build_graph` accumulates over all files (lines
89-102): symbols in discovery order with their out-call name sets. -/
def discoveredSymbols (files : List SrcFile) : List (FnSym × List String) :=
  files.flatMap (fun f => f.funcs.map (fun fc => (⟨f.stem, fc.1⟩, fc.2)))

/-- The edge construction of `build_graph` (lines 104-115): for every
symbol and every called name, an edge to every discovered symbol whose
short name matches — except self-edges (`if src != tgt`). -/
def buildEdges (symcalls : List (FnSym × List String)) : List (FnSym × FnSym) :=
  symcalls.flatMap (fun sc =>
    sc.2.flatMap (fun cal =>
      ((symcalls.map (fun x => x.1)).filter
          (fun t => shortName t == cal)).filterMap
        (fun tgt => if sc.1 ≠ tgt then some (sc.1, tgt) else none)))

/-- The degree computation of `build_graph` (lines 119-122): each edge
increments the degree of both endpoints. -/
def degreeOf (edges : List (FnSym × FnSym)) (s : FnSym) : Nat :=
  (edges.filter (fun e => e.1 == s)).length +
    (edges.filter (fun e => e.2 == s)).length

/-- `build_graph` never emits a self-edge, for any input. -/
theorem buildEdges_no_self_edge (symcalls : List (FnSym × List String)) :
    ∀ e ∈ buildEdges symcalls, e.1 ≠ e.2 := by
  intro e he
  simp only [buildEdges, List.mem_flatMap, List.mem_filterMap] at he
  obtain ⟨sc, _, cal, _, tgt, _, hsome⟩ := he
  by_cases hne : sc.1 = tgt
  · simp [hne] at hsome
  · rw [if_pos hne] at hsome
    cases hsome
    simpa using hne

/-- If `f` maps the distinguished element of a duplicate-free list to `v`
and every other element to `[]`, the flatMap over the list is `v`. -/
theorem flatMap_eq_of_unique {α β : Type} [DecidableEq α] (f : α → List β)
    (l : List α) (b : α) (v : List β) (hnd : l.Nodup) (hb : b ∈ l)
    (hfb : f b = v) (hother : ∀ x ∈ l, x ≠ b → f x = []) :
    l.flatMap f = v := by
  induction l with
  | nil => cases hb
  | cons c cs ih =>
    rw [List.flatMap_cons]
    by_cases hc : c = b
    · subst hc
      have hrest : cs.flatMap f = [] := by
        rw [List.flatMap_eq_nil_iff]
        intro x hx
        exact hother x (List.mem_cons_of_mem c hx)
          (fun hxb => (List.nodup_cons.mp hnd).1 (hxb ▸ hx))
      rw [hfb, hrest, List.append_nil]
    · have hcnil : f c = [] := hother c (List.mem_cons_self c cs) hc
      have hbcs : b ∈ cs := by
        rcases List.mem_cons.mp hb with h | h
        · exact absurd h.symm hc
        · exact h
      rw [hcnil, List.nil_append]
      exact ih (List.nodup_cons.mp hnd).2 hbcs
        (fun x hx hxb => hother x (List.mem_cons_of_mem c hx) hxb)

/-- C8: for an input tree with one file defining exactly two functions `a`
and `b`, where `a` calls `b` by name (its call-name set `ca` contains `b`;
Python sets are duplicate-free) and `b` calls nothing, `build_graph`
produces exactly the single edge `a → b`, both endpoints have degree 1, and
— for every input tree — no self-edge is ever produced. -/
theorem c8_graph_builder (s a b : String) (ca : List String)
    (hab : a ≠ b) (hmem : b ∈ ca) (hnd : ca.Nodup) :
    buildEdges (discoveredSymbols [⟨s, [([a], ca), ([b], [])]⟩]) =
      [(⟨s, [a]⟩, ⟨s, [b]⟩)] ∧
    degreeOf (buildEdges (discoveredSymbols [⟨s, [([a], ca), ([b], [])]⟩]))
      ⟨s, [a]⟩ = 1 ∧
    degreeOf (buildEdges (discoveredSymbols [⟨s, [([a], ca), ([b], [])]⟩]))
      ⟨s, [b]⟩ = 1 ∧
    (∀ (files : List SrcFile) (e : FnSym × FnSym),
      e ∈ buildEdges (discoveredSymbols files) → e.1 ≠ e.2) := by
  have hAB : (⟨s, [a]⟩ : FnSym) ≠ ⟨s, [b]⟩ := by
    simp [FnSym.mk.injEq, hab]
  have hedges : buildEdges (discoveredSymbols [⟨s, [([a], ca), ([b], [])]⟩]) =
      [(⟨s, [a]⟩, ⟨s, [b]⟩)] := by
    simp only [discoveredSymbols, buildEdges, List.flatMap_cons,
      List.flatMap_nil, List.map_cons, List.map_nil, List.append_nil]
    refine flatMap_eq_of_unique _ ca b _ hnd hmem ?_ ?_
    · simp [shortName, hab, hAB]
    · intro x hx hxb
      by_cases hxa : a = x
      · subst hxa
        simp [shortName, Ne.symm hab]
      · simp [shortName, Ne.symm hxa]
        intro h
        exact absurd h.symm hxb
  refine ⟨hedges, ?_, ?_, fun files e he => buildEdges_no_self_edge _ e he⟩
  · rw [hedges]
    simp [degreeOf, Ne.symm hAB, hAB]
  · rw [hedges]
    simp [degreeOf, Ne.symm hAB, hAB]

/-- Witness for C8 at a concrete two-function file: `util.py` defining
`main` (which calls `helper` and `print`) and `helper`. -/
theorem c8_graph_builder_witness :
    buildEdges (discoveredSymbols
        [⟨"util", [(["main"], ["helper", "print"]), (["helper"], [])]⟩]) =
      [(⟨"util", ["main"]⟩, ⟨"util", ["helper"]⟩)] ∧
    degreeOf (buildEdges (discoveredSymbols
        [⟨"util", [(["main"], ["helper", "print"]), (["helper"], [])]⟩]))
      ⟨"util", ["main"]⟩ = 1 ∧
    degreeOf (buildEdges (discoveredSymbols
        [⟨"util", [(["main"], ["helper", "print"]), (["helper"], [])]⟩]))
      ⟨"util", ["helper"]⟩ = 1 :=
  have h := c8_graph_builder "util" "main" "helper" ["helper", "print"]
    (by decide) (by decide) (by decide)
  ⟨h.1, h.2.1, h.2.2.1⟩

/-- One entry of the `AIAnalyzer` result cache (`ai_analyzer.py` lines
110-115): the post-processed suggestions and the caching timestamp. -/
structure CacheEntry where
  suggestions : List String
  timestamp : Int
deriving DecidableEq, Repr

/-- The mutable state of `AIAnalyzer`: the result cache (a dict, modelled
as a function from keys) and `last_cache_cleanup`.  `cache_ttl` is fixed at
3600 in `__init__`. -/
structure AnalyzerState where
  cache : String → Option CacheEntry
  last_cache_cleanup : Int

/-- `self.cache_ttl = 3600  # 1 hour`. -/
def cache_ttl : Int := 3600

/-- An `AIAnalyzer` as constructed by `__init__` at time 0: empty cache. -/
def initAnalyzer : AnalyzerState :=
  { cache := fun _ => none, last_cache_cleanup := 0 }

/-- `_generate_cache_key` (lines 85-94):
`f"{language}:{analysis_type}:{show_all}:{md5(code)}"`.  The md5 hexdigest
of the code is modelled by the code text itself (the hash is treated as
collision-free). -/
def generate_cache_key (code language : String) (show_all : Bool)
    (analysis_type : String) : String :=
  language ++ ":" ++ analysis_type ++ ":" ++
    (if show_all then "True" else "False") ++ ":" ++ code

/-- `_get_cached_result` (lines 96-108): a live entry (strictly younger
than the TTL) is returned; an expired entry is deleted and `None`
returned. -/
def get_cached_result (st : AnalyzerState) (key : String) (now : Int) :
    Option (List String) × AnalyzerState :=
  match st.cache key with
  | none => (none, st)
  | some entry =>
    if now - entry.timestamp < cache_ttl then
      (some entry.suggestions, st)
    else
      (none, { st with cache := fun k => if k = key then none else st.cache k })

/-- `_cache_result` (lines 110-115). -/
def cache_result (st : AnalyzerState) (key : String)
    (suggestions : List String) (now : Int) : AnalyzerState :=
  { st with cache := fun k =>
      if k = key then some ⟨suggestions, now⟩ else st.cache k }

/-- `_cleanup_cache` (lines 117-131): only when more than 5 minutes have
passed since the last sweep, delete every entry strictly older than the
TTL and record the sweep time. -/
def cleanup_cache (st : AnalyzerState) (now : Int) : AnalyzerState :=
  if now - st.last_cache_cleanup > 300 then
    { cache := fun k =>
        match st.cache k with
        | some entry =>
            if now - entry.timestamp > cache_ttl then none else some entry
        | none => none,
      last_cache_cleanup := now }
  else
    st

/-- The supported-language list of `analyze_code` (lines 37-44). -/
def supported_languages : List String :=
  ["python", "javascript", "java", "typescript", "go", "rust"]

/-- Python's substring test `needle in hay`, on character lists. -/
def isSubstring (needle : List Char) : List Char → Bool
  | [] => needle.isEmpty
  | c :: rest => needle.isPrefixOf (c :: rest) || isSubstring needle rest

/-- `_is_high_impact_suggestion` (lines 238-266): a high-impact keyword
occurs in the lowercased suggestion, or the complexity exceeds 7. -/
def is_high_impact_suggestion (suggestion : String) (complexity : Nat) :
    Bool :=
  (["security", "vulnerability", "performance", "memory leak",
    "race condition", "deadlock", "buffer overflow", "sql injection",
    "refactor", "simplify", "optimize", "critical"] : List String).any
      (fun k => isSubstring k.data (suggestion.data.map Char.toLower)) ||
  decide (7 < complexity)

/-- The bullet-prefix removal of `_process_suggestions` (lines 218-222):
the first matching prefix is stripped, then the loop breaks. -/
def strip_bullet (cleaned : List Char) : List Char :=
  if "- ".data.isPrefixOf cleaned then cleaned.drop 2
  else if "• ".data.isPrefixOf cleaned then cleaned.drop 2
  else if "* ".data.isPrefixOf cleaned then cleaned.drop 2
  else if "1. ".data.isPrefixOf cleaned then cleaned.drop 3
  else if "2. ".data.isPrefixOf cleaned then cleaned.drop 3
  else if "3. ".data.isPrefixOf cleaned then cleaned.drop 3
  else cleaned

/-- The loop body of `_process_suggestions` (lines 210-234): strip, skip
short lines, strip one bullet prefix, filter by impact unless `show_all`,
stop once 5 suggestions are collected. -/
def process_loop (complexity : Nat) (show_all : Bool) :
    List String → List String → List String
  | [], processed => processed
  | s :: rest, processed =>
    let cleaned := pyStrip s.data
    if cleaned.isEmpty || cleaned.length < 10 then
      process_loop complexity show_all rest processed
    else
      let cleaned2 := String.mk (strip_bullet cleaned)
      let processed' :=
        if show_all then processed ++ [cleaned2]
        else if is_high_impact_suggestion cleaned2 complexity then
          processed ++ [cleaned2]
        else processed
      if 5 ≤ processed'.length then processed'
      else process_loop complexity show_all rest processed'

/-- `_process_suggestions` (lines 198-236). -/
def process_suggestions (suggestions : List String) (complexity : Nat)
    (show_all : Bool) : List String :=
  if suggestions.isEmpty then [] else process_loop complexity show_all suggestions []

/-- The cache-miss path of `analyze_code` (lines 55-78): compute the
complexity, ask the provider manager (its answer for the deterministic
prompt context is the `providerResult` parameter; `_get_ai_suggestions`
never raises), post-process, cache, and run the gated cleanup.  The
returned boolean records that the provider manager was invoked. -/
def analyze_miss (st : AnalyzerState) (now : Int) (code language : String)
    (show_all : Bool) (analysis_type : String) (providerResult : List String)
    (key : String) : Except ExcKind (List String) × AnalyzerState × Bool :=
  let complexity := compute_complexity language code
  let processed := process_suggestions providerResult complexity show_all
  let st1 := cache_result st key processed now
  let st2 := cleanup_cache st1 now
  (.ok processed, st2, true)

/-- `AIAnalyzer.analyze_code` (lines 24-83).  Validation failures (blank
code, unsupported language) raise `ValueError`, which the blanket
`except Exception` handler catches; the handler then evaluates
`self._get_fallback_suggestions(code, language, complexity)` with the
local variable `complexity` (line 57) not yet assigned, so Python raises
`UnboundLocalError` to the caller.  On the valid path, a live cached
result is returned only if it is non-empty — the result of the walrus
assignment `if cached_result := ...` is tested for truthiness, and an
empty cached list falls through to the miss path.  The boolean component
records whether the provider manager was invoked. -/
def analyze_code (st : AnalyzerState) (now : Int) (code language : String)
    (show_all : Bool) (analysis_type : String) (providerResult : List String) :
    Except ExcKind (List String) × AnalyzerState × Bool :=
  if isBlank code then
    (.error .unboundLocalError, st, false)
  else if supported_languages.contains language then
    let key := generate_cache_key code language show_all analysis_type
    let gc := get_cached_result st key now
    match gc.1 with
    | some cached =>
      if cached.isEmpty then
        analyze_miss gc.2 now code language show_all analysis_type
          providerResult key
      else
        (.ok cached, gc.2, false)
    | none =>
        analyze_miss gc.2 now code language show_all analysis_type
          providerResult key
  else
    (.error .unboundLocalError, st, false)

/-- On valid inputs, `analyze_code` never reports an error. -/
theorem analyze_code_valid_isOk (st : AnalyzerState) (now : Int)
    (code language : String) (show_all : Bool) (analysis_type : String)
    (prov : List String) (hb : isBlank code = false)
    (hl : supported_languages.contains language = true) :
    ∃ l, (analyze_code st now code language show_all analysis_type prov).1 =
      .ok l := by
  simp only [analyze_code, hb, hl, Bool.false_eq_true, if_false, if_true]
  rcases hgc : (get_cached_result st
      (generate_cache_key code language show_all analysis_type) now).1
    with _ | cached
  · exact ⟨_, rfl⟩
  · by_cases hce : cached.isEmpty
    · simp only [hce, if_true]
      exact ⟨_, rfl⟩
    · simp only [hce, Bool.false_eq_true, if_false]
      exact ⟨cached, rfl⟩

/-- On valid inputs, a provider-invoking call is exactly the miss path. -/
theorem analyze_code_miss_spec (st : AnalyzerState) (now : Int)
    (code language : String) (show_all : Bool) (analysis_type : String)
    (prov : List String) (hb : isBlank code = false)
    (hl : supported_languages.contains language = true)
    (hmiss : (analyze_code st now code language show_all analysis_type
      prov).2.2 = true) :
    analyze_code st now code language show_all analysis_type prov =
      analyze_miss
        (get_cached_result st
          (generate_cache_key code language show_all analysis_type) now).2
        now code language show_all analysis_type prov
        (generate_cache_key code language show_all analysis_type) := by
  simp only [analyze_code, hb, hl, Bool.false_eq_true, if_false, if_true]
    at hmiss ⊢
  rcases hgc : (get_cached_result st
      (generate_cache_key code language show_all analysis_type) now).1
    with _ | cached
  · rfl
  · rw [hgc] at hmiss
    by_cases hce : cached.isEmpty
    · simp only [hce, if_true]
    · simp only [hce, Bool.false_eq_true, if_false] at hmiss

/-- A freshly cached entry survives the (gated) cleanup sweep. -/
theorem cache_after_store (st : AnalyzerState) (key : String)
    (sugs : List String) (now : Int) :
    (cleanup_cache (cache_result st key sugs now) now).cache key =
      some ⟨sugs, now⟩ := by
  unfold cleanup_cache cache_result
  split
  · simp [cache_ttl]
  · simp

/-- A live, non-empty cached entry under the call's key short-circuits
`analyze_code`: the cached suggestions are returned, the state is
untouched, and the provider manager is not invoked. -/
theorem analyze_code_hit (st : AnalyzerState) (now : Int)
    (code language : String) (show_all : Bool) (analysis_type : String)
    (prov S : List String) (t : Int)
    (hb : isBlank code = false)
    (hl : supported_languages.contains language = true)
    (hkey : st.cache (generate_cache_key code language show_all
      analysis_type) = some ⟨S, t⟩)
    (hlive : now - t < cache_ttl) (hS : S ≠ []) :
    analyze_code st now code language show_all analysis_type prov =
      (.ok S, st, false) := by
  have hgc : get_cached_result st
      (generate_cache_key code language show_all analysis_type) now =
      (some S, st) := by
    unfold get_cached_result
    rw [hkey]
    simp [hlive]
  have hSe : S.isEmpty = false := by
    cases S with
    | nil => exact absurd rfl hS
    | cons a l => rfl
  simp only [analyze_code, hb, hl, Bool.false_eq_true, if_false, if_true,
    hgc, hSe]

/-- Counterexample to C6 as stated: with a provider answer that
post-processes to the empty list, the first `analyze_code` call returns the
suggestion list `[]` and caches it; the second identical call 10 seconds
later (well inside the TTL) returns the identical list — but the walrus
test `if cached_result := ...` treats the cached empty list as falsy, so
the call takes the miss path and invokes the provider manager again
(boolean component `true`), contradicting "without invoking any
provider". -/
theorem c6_counterexample :
    (analyze_code initAnalyzer 0 "x = 1" "python" true "general" []).1 =
      .ok [] ∧
    (analyze_code initAnalyzer 0 "x = 1" "python" true "general" []).2.2 =
      true ∧
    (analyze_code
        (analyze_code initAnalyzer 0 "x = 1" "python" true "general" []).2.1
        10 "x = 1" "python" true "general" []).1 = .ok [] ∧
    (analyze_code
        (analyze_code initAnalyzer 0 "x = 1" "python" true "general" []).2.1
        10 "x = 1" "python" true "general" []).2.2 = true ∧
    (10 : Int) - 0 < cache_ttl :=
  ⟨rfl, rfl, rfl, rfl, by decide⟩

/-- C6 amended: if a first `analyze_code` call (show_all = True) computed,
returned and cached a NON-EMPTY suggestion list `S` (a provider-invoking
miss, boolean component `true`), then a second call with identical
`(language, analysis_type, show_all, code)` within the TTL window of the
caching time returns exactly `S`, leaves the state untouched, and does not
invoke any provider.  (A cached empty list is not returned from the cache —
see the counterexample.) -/
theorem c6_cache_round_trip (st : AnalyzerState) (now1 now2 : Int)
    (code language analysis_type : String) (prov S : List String)
    (st1 : AnalyzerState)
    (h1 : analyze_code st now1 code language true analysis_type prov =
      (.ok S, st1, true))
    (hS : S ≠ [])
    (httl : now2 - now1 < cache_ttl) :
    analyze_code st1 now2 code language true analysis_type prov =
      (.ok S, st1, false) := by
  by_cases hb : isBlank code = true
  · rw [show analyze_code st now1 code language true analysis_type prov =
      (.error .unboundLocalError, st, false) from by
        simp [analyze_code, hb]] at h1
    simp at h1
  by_cases hl : supported_languages.contains language = true
  · have hb' : isBlank code = false := by simpa using hb
    have hmiss : (analyze_code st now1 code language true analysis_type
        prov).2.2 = true := by rw [h1]
    have hspec := analyze_code_miss_spec st now1 code language true
      analysis_type prov hb' hl hmiss
    rw [hspec] at h1
    simp only [analyze_miss, Prod.mk.injEq, Except.ok.injEq] at h1
    obtain ⟨hP, hst, -⟩ := h1
    have hkey : st1.cache
        (generate_cache_key code language true analysis_type) =
        some ⟨S, now1⟩ := by
      rw [← hst, ← hP]
      exact cache_after_store _ _ _ _
    exact analyze_code_hit st1 now2 code language true analysis_type prov S
      now1 hb' hl hkey httl hS
  · have hb' : isBlank code = false := by simpa using hb
    have hmem : language ∉ supported_languages := by
      simpa using hl
    rw [show analyze_code st now1 code language true analysis_type prov =
      (.error .unboundLocalError, st, false) from by
        simp [analyze_code, hb', hmem]] at h1
    simp at h1

/-- Witness for C6 amended: caching a one-suggestion result at time 0 and
re-querying at time 10 returns it from the cache without a provider
call. -/
theorem c6_cache_round_trip_witness :
    analyze_code
        (analyze_code initAnalyzer 0 "x = 1" "python" true "general"
          ["Consider adding type hints for better code clarity"]).2.1
        10 "x = 1" "python" true "general"
        ["Consider adding type hints for better code clarity"] =
      (.ok ["Consider adding type hints for better code clarity"],
       (analyze_code initAnalyzer 0 "x = 1" "python" true "general"
          ["Consider adding type hints for better code clarity"]).2.1,
       false) :=
  c6_cache_round_trip initAnalyzer 0 10 "x = 1" "python" "general"
    ["Consider adding type hints for better code clarity"]
    ["Consider adding type hints for better code clarity"]
    ((analyze_code initAnalyzer 0 "x = 1" "python" true "general"
        ["Consider adding type hints for better code clarity"]).2.1)
    rfl (by decide) (by decide)

/-- Counterexample to C7 as stated: on empty code (or an unsupported
language) `analyze_code` does fail, but the error reaching the caller is
an `UnboundLocalError` — the blanket handler's fallback call reads the
unassigned local `complexity` — not the validation `ValueError`. -/
theorem c7_counterexample :
    (analyze_code initAnalyzer 0 "" "python" true "general" []).1 =
      .error .unboundLocalError ∧
    (analyze_code initAnalyzer 0 "x = 1" "haskell" true "general" []).1 =
      .error .unboundLocalError ∧
    ExcKind.unboundLocalError ≠ ExcKind.valueError :=
  ⟨rfl, rfl, by decide⟩

/-- C7 amended: `analyze_code` fails exactly when the code is
empty/whitespace-only or the language is outside the supported set — but
the failure reported to the caller is an `UnboundLocalError` raised inside
the `except` handler (whose fallback call reads the not-yet-assigned
`complexity` local), not a validation error; no other error kind is ever
reported. -/
theorem c7_analyze_code_validation (st : AnalyzerState) (now : Int)
    (code language : String) (show_all : Bool) (analysis_type : String)
    (prov : List String) :
    ((analyze_code st now code language show_all analysis_type prov).1 =
        .error .unboundLocalError ↔
      (isBlank code = true ∨
        supported_languages.contains language = false)) ∧
    (∀ e, (analyze_code st now code language show_all analysis_type
        prov).1 = .error e → e = .unboundLocalError) := by
  by_cases hb : isBlank code = true
  · constructor
    · simp [analyze_code, hb]
    · intro e he
      simp [analyze_code, hb] at he
      exact he.symm
  · have hb' : isBlank code = false := by simpa using hb
    by_cases hl : supported_languages.contains language = true
    · have hmem : language ∈ supported_languages := by simpa using hl
      obtain ⟨l, hok⟩ := analyze_code_valid_isOk st now code language
        show_all analysis_type prov hb' hl
      constructor
      · rw [hok]
        simp [hb', hl, hmem]
      · intro e he
        rw [hok] at he
        exact absurd he (by simp)
    · have hmem : language ∉ supported_languages := by
        simpa using hl
      constructor
      · simp [analyze_code, hb', hmem]
      · intro e he
        simp [analyze_code, hb', hmem] at he
        exact he.symm

/-- Witness for C7 amended at empty code. -/
theorem c7_analyze_code_validation_witness :
    (analyze_code initAnalyzer 0 "" "python" true "general" []).1 =
      .error .unboundLocalError ∧
    ExcKind.unboundLocalError = ExcKind.unboundLocalError :=
  ⟨(c7_analyze_code_validation initAnalyzer 0 "" "python" true "general"
      []).1.mpr (Or.inl rfl),
   (c7_analyze_code_validation initAnalyzer 0 "" "python" true "general"
      []).2 .unboundLocalError rfl⟩
